import Mathlib

/-!
Verification development for the calendar-agent repository.

Shallow embedding of the tool-calling orchestration core:
* `src/ai_models/openai.py` — `structured_chat_completion`,
  `_format_completion_response_json`, `handle_openai_errors`;
* `src/main.py` — `handle_tool_call`;
* `src/utils/calendar_actions.py` — `_cache_event`, `_find_event_id`,
  `ensure_rfc3339_format`, `add_attendee`, `delete_event`.

Python machine-level conventions used throughout:
* exceptions are modelled as `Except PyError`; a `try/except` block is the
  corresponding `match`;
* Python lists are modelled by reference: a `Store` is the heap of lists,
  a list value is a pointer (`Nat` index) into it, `list.copy()` allocates
  a fresh cell, `list.append` mutates a cell in place;
* Python dicts keyed by strings are association lists with left-most-binding
  (shadowing) lookup; `d[k] = v` conses a binding, `del d[k]` filters it out;
* floats in the cost formula are modelled as exact rationals (the claims
  about cost concern only its sign, which IEEE arithmetic preserves);
* the external model service and the Google-calendar backend are collaborators
  given as explicit parameters (an oracle of responses, a list of events).
-/

/-- A Python exception value, tagged with the class the source raises or
catches (`OpenAIError` is the class the decorator treats specially). -/
inductive PyError where
  | openAIError (msg : String)
  | valueError (msg : String)
  | typeError (msg : String)
  | indexError (msg : String)
  | exception (msg : String)
deriving DecidableEq, Repr

/-- Python `str(e)`: the message carried by the exception. -/
def PyError.text : PyError → String
  | .openAIError m => m
  | .valueError m => m
  | .typeError m => m
  | .indexError m => m
  | .exception m => m

/-- One entry of `message.tool_calls`: correlation id, function name and the
raw (still unparsed) JSON arguments string. -/
structure ToolCall where
  id : String
  name : String
  arguments : String
deriving DecidableEq, Repr

/-- A conversation message.  `assistant` keeps the `tool_calls` list of the
model reply (empty list models Python `None`); `tool` messages carry the
`tool_call_id` correlation field. -/
inductive Msg where
  | system (content : String)
  | user (content : String)
  | assistant (content : Option String) (tool_calls : List ToolCall)
  | tool (tool_call_id : String) (content : String)
deriving DecidableEq, Repr

/-- The `tool_call_id` field of a message, when it is a `tool` message. -/
def Msg.toolCallId? : Msg → Option String
  | .tool tcid _ => some tcid
  | _ => none

/-- Whether a message has role `tool`. -/
def Msg.isToolRole : Msg → Bool
  | .tool _ _ => true
  | _ => false

/-- `FunctionParameters` (src/ai_models/openai.py): a JSON-schema object;
property schemas are kept abstract as key/value text. -/
structure FunctionParameters where
  properties : List (String × String)
  required : List String
  additionalProperties : Bool := false
deriving DecidableEq, Repr

/-- `Function` (src/ai_models/openai.py). -/
structure Function where
  name : String
  description : String
  parameters : FunctionParameters
  strict : Bool := true
deriving DecidableEq, Repr

/-- `Tool` (src/ai_models/openai.py): always of type "function". -/
structure Tool where
  function : Function
deriving DecidableEq, Repr

/-- `CompletionUsage` as seen through `completion.model_dump()["usage"]`. -/
structure Usage where
  prompt_tokens : Int
  completion_tokens : Int
  total_tokens : Int
deriving DecidableEq, Repr

/-- One element of `completion["choices"]`; `parsed` is
`choices[i]["message"]["parsed"]`, the structured payload (kept abstract as
its serialized text). -/
structure Choice where
  parsed : Option String
deriving DecidableEq, Repr

/-- A raw model completion, restricted to the fields the formatter reads.
`usage = none` models a completion whose usage block is missing. -/
structure Completion where
  usage : Option Usage
  choices : List Choice
deriving DecidableEq, Repr

/-- The serialized Structured Output Envelope: the dict that
`_format_completion_response_json` JSON-encodes for the caller. -/
structure Envelope where
  data : Option String
  cost : ℚ
  total_tokens : Int
deriving DecidableEq, Repr

/-- `_format_completion_response_json` (src/ai_models/openai.py lines 50-63).
`completion["usage"]` on a missing usage block raises (`TypeError`), as does
`completion["choices"][0]` on an empty choices list (`IndexError`); the cost
is computed before the choices access, matching the source order. -/
def _format_completion_response_json (completion : Completion) : Except PyError Envelope :=
  match completion.usage with
  | none => .error (.typeError "argument of type NoneType is not subscriptable")
  | some u =>
    let cost : ℚ := ((u.prompt_tokens : ℚ) * (1 / 1000) + (u.completion_tokens : ℚ) * (2 / 1000)) / 1000
    match completion.choices with
    | [] => .error (.indexError "list index out of range")
    | choice :: _ =>
      .ok { data := choice.parsed, cost := cost, total_tokens := u.total_tokens }

/-- `handle_openai_errors` (src/ai_models/openai.py lines 38-48): the
decorator re-raises an `OpenAIError` as `Exception("OpenAI API error: ...")`
and any other exception as `Exception("Unexpected error: ...")`. -/
def handle_openai_errors {α : Type} (r : Except PyError α) : Except String α :=
  match r with
  | .ok a => .ok a
  | .error (.openAIError m) => .error ("OpenAI API error: " ++ m)
  | .error e => .error ("Unexpected error: " ++ e.text)

/-- The heap of Python lists of messages: each cell is one list object. -/
abbrev Store := List (List Msg)

/-- Dereference a list pointer. -/
def readList (st : Store) (p : Nat) : List Msg := (st[p]?).getD []

/-- `lst.append(m)` on the list object at pointer `p`. -/
def writeAppend (st : Store) (p : Nat) (m : Msg) : Store :=
  st.set p (readList st p ++ [m])

/-- The model service, as the orchestrator sees it: `create` is
`client.chat.completions.create` projected to `choices[0].message`
(content and tool calls), `parse` is `client.beta.chat.completions.parse`.
Either call may raise. -/
structure ModelOracle where
  create : List Msg → Except PyError (Option String × List ToolCall)
  parse : List Msg → Except PyError Completion

/-- The `tool_handler` pipeline for one tool call as run inside the
orchestrator's `try`: `json.loads(arguments)`, the handler itself and
`json.dumps(result)`, any of which may raise. -/
abbrev ToolHandler := ToolCall → Except PyError String

/-- The `tool` message appended for one tool call: the serialized handler
result on success, `"Error: " ++ str(e)` when the `try` body raised; either
way it carries the originating call's `tool_call_id`. -/
def toolResultMsg (h : ToolHandler) (tc : ToolCall) : Msg :=
  match h tc with
  | .ok r => .tool tc.id r
  | .error e => .tool tc.id ("Error: " ++ e.text)

/-- Result of one orchestrator run: the final heap, the Python return value
or raised error, and how many times each model endpoint was invoked. -/
structure OrchResult where
  store : Store
  outcome : Except PyError (Option Envelope)
  createCalls : Nat
  parseCalls : Nat
deriving Repr

/-- Outcome of the structured-output round over a given conversation
(src/ai_models/openai.py lines 137-139): `client.beta.chat.completions.parse`
followed by `_format_completion_response_json` — the parse call's error, the
formatter's error, or exactly one envelope. -/
def finalOutcome (oracle : ModelOracle) (msgs : List Msg) : Except PyError (Option Envelope) :=
  match oracle.parse msgs with
  | .error e => .error e
  | .ok completion =>
    match _format_completion_response_json completion with
    | .error e => .error e
    | .ok env => .ok (some env)

/-- The structured-output round (src/ai_models/openai.py lines 136-139):
set `response_format`, run `finalOutcome` on the working conversation; the
working cell is not modified.  The counters record the whole two-round
protocol: the single create call already made plus this single parse
call. -/
def roundTwo (oracle : ModelOracle) (stt : Store) (workingPtr : Nat) : OrchResult :=
  { store := stt, outcome := finalOutcome oracle (readList stt workingPtr),
    createCalls := 1, parseCalls := 1 }

/-- Body of `structured_chat_completion` (src/ai_models/openai.py lines
66-139), before the `handle_openai_errors` decorator is applied.
`working_messages = messages.copy()` allocates a fresh cell; everything from
the tools check on is inside `if tools:` exactly as in the source, so with
no tools the function falls through and returns Python `None`
(`outcome = .ok none`).  With zero tool calls nothing is appended; with tool
calls the assistant message and one `tool` message per call are appended to
the working cell, then the parse endpoint is called on it. -/
def structured_chat_completion_inner (oracle : ModelOracle) (st : Store) (messagesPtr : Nat)
    (tools : List Tool) (tool_handler : Option ToolHandler) : OrchResult :=
  let st0 := st ++ [readList st messagesPtr]
  let workingPtr := st.length
  if tools.isEmpty then
    { store := st0, outcome := .ok none, createCalls := 0, parseCalls := 0 }
  else
    match tool_handler with
    | none =>
      { store := st0,
        outcome := .error (.valueError "tool_handler is required when tools are provided"),
        createCalls := 0, parseCalls := 0 }
    | some h =>
      match oracle.create (readList st0 workingPtr) with
      | .error e => { store := st0, outcome := .error e, createCalls := 1, parseCalls := 0 }
      | .ok (content, toolCalls) =>
        let st1 :=
          if toolCalls.isEmpty then st0
          else
            let stA := writeAppend st0 workingPtr (.assistant content toolCalls)
            toolCalls.foldl (fun acc tc => writeAppend acc workingPtr (toolResultMsg h tc)) stA
        roundTwo oracle st1 workingPtr

/-- Result of the decorated orchestrator: raised errors are re-wrapped
strings, per `handle_openai_errors`. -/
structure RunResult where
  store : Store
  result : Except String (Option Envelope)
  createCalls : Nat
  parseCalls : Nat
deriving Repr

/-- `structured_chat_completion` as exported: the body wrapped by the
`@handle_openai_errors` decorator. -/
def structured_chat_completion (oracle : ModelOracle) (st : Store) (messagesPtr : Nat)
    (tools : List Tool) (tool_handler : Option ToolHandler) : RunResult :=
  let r := structured_chat_completion_inner oracle st messagesPtr tools tool_handler
  { store := r.store, result := handle_openai_errors r.outcome,
    createCalls := r.createCalls, parseCalls := r.parseCalls }

/-!  Tool executor: `handle_tool_call` (src/main.py lines 86-126). -/

/-- A Tool Result as returned by `handle_tool_call`: the dict
`{'success', 'error'?, 'message'}` (the `data` payload of successful calls is
folded into the operation's rendered message). -/
structure ToolResult where
  success : Bool
  error : Option String
  message : String
deriving DecidableEq, Repr

/-- Raw keyword arguments of a tool call after `json.loads`. -/
abbrev Args := List (String × String)

/-- The four calendar operations (together with their per-tool success-message
rendering) as the executor invokes them; each may raise. -/
structure CalendarOps where
  create_event : Args → Except PyError String
  list_events : Args → Except PyError String
  add_attendee : Args → Except PyError String
  delete_event : Args → Except PyError String

/-- Python `name.replace('_', ' ')`. -/
def replaceUnderscores (s : String) : String :=
  String.map (fun c => if c = '_' then ' ' else c) s

/-- The `if/elif` dispatch chain of `handle_tool_call`: a declared name goes
to its operation, any other name raises
`ValueError("Unknown tool: ...")`. -/
def dispatchToolName (ops : CalendarOps) (name : String) (args : Args) : Except PyError String :=
  if name == "create_event" then ops.create_event args
  else if name == "list_events" then ops.list_events args
  else if name == "add_attendee" then ops.add_attendee args
  else if name == "delete_event" then ops.delete_event args
  else .error (.valueError ("Unknown tool: " ++ name))

/-- `handle_tool_call` (src/main.py lines 86-126): the whole body, including
`get_calendar_service()` and the unknown-name `raise`, sits in one
`try/except Exception` that converts any raised error into a failed Tool
Result dict carrying `str(e)`; the function itself never raises. -/
def handle_tool_call (getService : Except PyError Unit) (ops : CalendarOps)
    (tc : ToolCall) (args : Args) : ToolResult :=
  let attempt : Except PyError String :=
    match getService with
    | .error e => .error e
    | .ok _ => dispatchToolName ops tc.name args
  match attempt with
  | .ok msg => { success := true, error := none, message := msg }
  | .error e =>
    { success := false, error := some e.text,
      message := "Failed to " ++ replaceUnderscores tc.name ++ ": " ++ e.text }

/-!  Calendar actions: src/utils/calendar_actions.py. -/

/-- A calendar event as held by the backend (start and end instants are kept
as abstract comparable timestamps). -/
structure GEvent where
  id : String
  summary : String
  start : Int
  endTime : Int
  attendees : List String
deriving DecidableEq, Repr

/-- The snapshot stored in `event_cache` by `_cache_event`. -/
structure CachedEvent where
  id : String
  summary : String
  start : Int
  endTime : Int
  attendees : List String
deriving DecidableEq, Repr

/-- The snapshot `_cache_event` builds from a backend event. -/
def toCached (e : GEvent) : CachedEvent :=
  { id := e.id, summary := e.summary, start := e.start, endTime := e.endTime,
    attendees := e.attendees }

/-- The process-wide `event_cache` dict: string key (event id or lowercased
summary) to snapshot, with newest binding shadowing older ones. -/
abbrev Cache := List (String × CachedEvent)

/-- Python `key in event_cache` / `event_cache[key]`. -/
def cacheLookup (cache : Cache) (k : String) : Option CachedEvent :=
  (cache.find? (fun p => p.1 == k)).map (fun p => p.2)

/-- Python `del event_cache[k]` guarded by `if k in event_cache` (removes the
key entirely). -/
def cacheDelete (cache : Cache) (k : String) : Cache :=
  cache.filter (fun p => !(p.1 == k))

/-- `_cache_event` (src/utils/calendar_actions.py lines 15-27): stores the
snapshot under the event id and under the lowercased summary, and returns
it. -/
def _cache_event (cache : Cache) (e : GEvent) : Cache × CachedEvent :=
  let ce := toCached e
  ((e.summary.toLower, ce) :: (e.id, ce) :: cache, ce)

/-- `service.events().get(eventId=k)`: the backend event with that id, or a
404. -/
def getEvent (events : List GEvent) (k : String) : Option GEvent :=
  events.find? (fun e => e.id == k)

/-- The Google `q` free-text filter, modelled as case-insensitive substring
match on the summary (a superset of the exact-summary matches the caller
keeps). -/
def qMatch (q : String) (e : GEvent) : Bool :=
  decide (List.IsInfix q.toLower.data e.summary.toLower.data)

/-- `service.events().list(timeMin=tmin, timeMax=tmax, q=q,
singleEvents=True)`: the events in the window matching the query. -/
def listWindow (events : List GEvent) (tmin tmax : Int) (q : String) : List GEvent :=
  events.filter (fun e => decide (tmin ≤ e.start) && decide (e.start ≤ tmax) && qMatch q e)

/-- The clock context of one call: `datetime.now(pytz.UTC)` and the outcome
of `now.replace(month=now.month + 3)`, which in the source either yields the
window upper bound or raises (months past September make `month + 3`
invalid); the raise is swallowed by the search's `except`. -/
structure TimeEnv where
  now : Int
  threeMonths : Except PyError Int

/-- The mutable calendar world: the backend's events plus the process-wide
`event_cache`. -/
structure CalState where
  events : List GEvent
  cache : Cache
deriving DecidableEq, Repr

/-- `_find_event_id` (src/utils/calendar_actions.py lines 29-65): cache
lookup by raw key first; then exact id against the backend (a 404 falls
through, and a hit is cached); then the title search over a bounded future
window keeping the first event whose lowercased summary equals the
lowercased identifier (a hit is cached); any search failure — including the
window computation raising — is swallowed and resolution returns `None`. -/
def _find_event_id (env : TimeEnv) (st : CalState) (ident : String) :
    CalState × Option String :=
  match cacheLookup st.cache ident with
  | some ce => (st, some ce.id)
  | none =>
    match getEvent st.events ident with
    | some ev => ({ st with cache := (_cache_event st.cache ev).1 }, some ev.id)
    | none =>
      match env.threeMonths with
      | .error _ => (st, none)
      | .ok tmax =>
        match (listWindow st.events env.now tmax ident).find?
            (fun e => e.summary.toLower == ident.toLower) with
        | some ev => ({ st with cache := (_cache_event st.cache ev).1 }, some ev.id)
        | none => (st, none)

/-- `service.events().update(eventId=k, body=ev)`: the backend replaces the
event with that id. -/
def updateEvent (events : List GEvent) (k : String) (ev : GEvent) : List GEvent :=
  events.map (fun e => if e.id == k then ev else e)

/-- `add_attendee` (src/utils/calendar_actions.py lines 160-207): resolve the
identifier (raising `ValueError("Could not find event with identifier: ...")`
on failure), fetch the event (a 404 on a stale cached id propagates), no-op
when the email is already among the attendees, otherwise append it, push the
update and cache the result. -/
def add_attendee (env : TimeEnv) (st : CalState) (event_id attendee_email : String) :
    CalState × Except PyError CachedEvent :=
  match _find_event_id env st event_id with
  | (st1, none) =>
    (st1, .error (.valueError ("Could not find event with identifier: " ++ event_id)))
  | (st1, some aid) =>
    match getEvent st1.events aid with
    | none => (st1, .error (.exception ("Event " ++ aid ++ " not found")))
    | some ev =>
      if ev.attendees.contains attendee_email then
        let c := _cache_event st1.cache ev
        ({ st1 with cache := c.1 }, .ok c.2)
      else
        let ev' := { ev with attendees := ev.attendees ++ [attendee_email] }
        let events' := updateEvent st1.events aid ev'
        let c := _cache_event st1.cache ev'
        ({ events := events', cache := c.1 }, .ok c.2)

/-- `delete_event` (src/utils/calendar_actions.py lines 209-248): resolve the
identifier (same `ValueError` on failure), fetch and cache the event, delete
it backend-side, purge both the id-keyed and the lowercased-summary-keyed
cache entries, and return the success message. -/
def delete_event (env : TimeEnv) (st : CalState) (event_id : String) :
    CalState × Except PyError String :=
  match _find_event_id env st event_id with
  | (st1, none) =>
    (st1, .error (.valueError ("Could not find event with identifier: " ++ event_id)))
  | (st1, some aid) =>
    match getEvent st1.events aid with
    | none => (st1, .error (.exception ("Event " ++ aid ++ " not found")))
    | some ev =>
      let c := _cache_event st1.cache ev
      let events' := st1.events.filter (fun e => !(e.id == aid))
      let cache' := cacheDelete (cacheDelete c.1 aid) ev.summary.toLower
      ({ events := events', cache := cache' },
       .ok ("Event \"" ++ c.2.summary ++ "\" has been deleted"))

/-!  Timestamp normalization: `ensure_rfc3339_format`
(src/utils/calendar_actions.py lines 67-76). -/

/-- The timezone designator of an ISO-8601 timestamp string: absent, the `Z`
suffix, or an explicit numeric offset (in minutes). -/
inductive TzSuffix where
  | bare
  | zulu
  | offset (minutes : Int)
deriving DecidableEq, Repr

/-- An ISO-8601 timestamp string, abstracted to its parse: the naive
date-time components (as a comparable timestamp value) and the timezone
designator. -/
structure TimeStr where
  naive : Int
  suffix : TzSuffix
deriving DecidableEq, Repr

/-- Python `date_str.replace('Z', '+00:00')` on such a string: the `Z`
designator becomes the explicit zero offset. -/
def replaceZ (s : TimeStr) : TimeStr :=
  match s.suffix with
  | .zulu => { s with suffix := .offset 0 }
  | _ => s

/-- `datetime.fromisoformat`: a bare string parses to a naive datetime, an
explicit offset to an aware one; the bare `Z` designator is rejected with
`ValueError` (the source replaces it away before parsing precisely for this
reason). -/
def fromisoformat (s : TimeStr) : Except PyError (Int × Option Int) :=
  match s.suffix with
  | .bare => .ok (s.naive, none)
  | .offset m => .ok (s.naive, some m)
  | .zulu => .error (.valueError "Invalid isoformat string")

/-- `dt.isoformat()`: a naive datetime prints bare, an aware one prints its
offset. -/
def isoformat (dt : Int × Option Int) : TimeStr :=
  match dt.2 with
  | none => { naive := dt.1, suffix := .bare }
  | some m => { naive := dt.1, suffix := .offset m }

/-- `ensure_rfc3339_format` (src/utils/calendar_actions.py lines 67-76):
parse the `Z`-replaced string; on `ValueError` parse the original and stamp
UTC on it (`.replace(tzinfo=pytz.UTC)`); print the result back. -/
def ensure_rfc3339_format (s : TimeStr) : Except PyError TimeStr :=
  match fromisoformat (replaceZ s) with
  | .ok dt => .ok (isoformat dt)
  | .error _ =>
    match fromisoformat s with
    | .ok dt => .ok (isoformat (dt.1, some 0))
    | .error e => .error e

/-- The instant a timestamp string denotes, under the claim's convention that
a bare (offset-free) string is read as UTC. -/
def toInstant (s : TimeStr) : Int :=
  match s.suffix with
  | .bare => s.naive
  | .zulu => s.naive
  | .offset m => s.naive - m

/-!  Store lemmas. -/

theorem readList_append_self (st : Store) (l : List Msg) :
    readList (st ++ [l]) st.length = l := by
  simp [readList, List.getElem?_concat_length]

theorem readList_append_lt (st : Store) (l : List Msg) (p : Nat) (hp : p < st.length) :
    readList (st ++ [l]) p = readList st p := by
  simp [readList, List.getElem?_append_left hp]

theorem writeAppend_length (st : Store) (p : Nat) (m : Msg) :
    (writeAppend st p m).length = st.length := by
  simp [writeAppend]

theorem readList_writeAppend_self (st : Store) (p : Nat) (m : Msg) (hp : p < st.length) :
    readList (writeAppend st p m) p = readList st p ++ [m] := by
  simp [writeAppend, readList, List.getElem?_set_self hp]

theorem readList_writeAppend_ne (st : Store) (p q : Nat) (m : Msg) (hq : p ≠ q) :
    readList (writeAppend st p m) q = readList st q := by
  simp [writeAppend, readList, List.getElem?_set_ne hq]

theorem foldl_writeAppend_length {α : Type} (f : α → Msg) (l : List α) (acc : Store) (p : Nat) :
    (l.foldl (fun a x => writeAppend a p (f x)) acc).length = acc.length := by
  induction l generalizing acc with
  | nil => rfl
  | cons x xs ih => simp [ih, writeAppend_length]

theorem readList_foldl_writeAppend {α : Type} (f : α → Msg) (l : List α) (acc : Store)
    (p : Nat) (hp : p < acc.length) :
    readList (l.foldl (fun a x => writeAppend a p (f x)) acc) p =
      readList acc p ++ l.map f := by
  induction l generalizing acc with
  | nil => simp
  | cons x xs ih =>
    have hp' : p < (writeAppend acc p (f x)).length := by
      rw [writeAppend_length]; exact hp
    simp only [List.foldl_cons, List.map_cons]
    rw [ih _ hp', readList_writeAppend_self _ _ _ hp]
    simp

theorem readList_foldl_writeAppend_ne {α : Type} (f : α → Msg) (l : List α) (acc : Store)
    (p q : Nat) (hq : p ≠ q) :
    readList (l.foldl (fun a x => writeAppend a p (f x)) acc) q = readList acc q := by
  induction l generalizing acc with
  | nil => rfl
  | cons x xs ih => rw [List.foldl_cons, ih, readList_writeAppend_ne _ _ _ _ hq]

/-!  Orchestrator run-shape lemmas. -/

/-- The working conversation as it stands when the structured-output round is
invoked: unchanged for a reply with zero tool calls, otherwise the assistant
tool-request message followed by one tool-result message per call. -/
def afterToolsMsgs (h : ToolHandler) (base : List Msg) (content : Option String)
    (tcs : List ToolCall) : List Msg :=
  if tcs.isEmpty then base
  else base ++ Msg.assistant content tcs :: tcs.map (toolResultMsg h)

theorem roundTwo_eq (oracle : ModelOracle) (stt : Store) (q : Nat) :
    roundTwo oracle stt q =
      { store := stt, outcome := finalOutcome oracle (readList stt q),
        createCalls := 1, parseCalls := 1 } := rfl

/-- Shape of a run whose first-round model call succeeds: the heap gains one
cell, the working cell holds `afterToolsMsgs`, every other cell is untouched,
each model endpoint was invoked exactly once, and the result is the
structured-output round's outcome over that working conversation
(decorated). -/
theorem orch_run_draft_ok (oracle : ModelOracle) (st : Store) (p : Nat) (t : Tool)
    (ts : List Tool) (h : ToolHandler) (content : Option String) (tcs : List ToolCall)
    (hcreate : oracle.create (readList st p) = .ok (content, tcs)) :
    (structured_chat_completion oracle st p (t :: ts) (some h)).store.length = st.length + 1 ∧
    readList (structured_chat_completion oracle st p (t :: ts) (some h)).store st.length =
      afterToolsMsgs h (readList st p) content tcs ∧
    (∀ q, q ≠ st.length →
      readList (structured_chat_completion oracle st p (t :: ts) (some h)).store q =
        readList st q) ∧
    (structured_chat_completion oracle st p (t :: ts) (some h)).result =
      handle_openai_errors
        (finalOutcome oracle (afterToolsMsgs h (readList st p) content tcs)) ∧
    (structured_chat_completion oracle st p (t :: ts) (some h)).createCalls = 1 ∧
    (structured_chat_completion oracle st p (t :: ts) (some h)).parseCalls = 1 := by
  have hbase := readList_append_self st (readList st p)
  have hframe : ∀ q, q ≠ st.length →
      readList (st ++ [readList st p]) q = readList st q := by
    intro q hq
    rcases Nat.lt_or_ge q st.length with hlt | hge
    · exact readList_append_lt st _ q hlt
    · have hge' : st.length < q := Nat.lt_of_le_of_ne hge (fun hc => hq hc.symm)
      simp only [readList]
      rw [List.getElem?_eq_none (by simpa using hge'), List.getElem?_eq_none (Nat.le_of_lt hge')]
  simp only [structured_chat_completion, structured_chat_completion_inner, List.isEmpty_cons,
    Bool.false_eq_true, if_false, hbase, hcreate]
  cases htcs : tcs.isEmpty with
  | true =>
    have h0 : tcs = [] := List.isEmpty_iff.mp htcs
    subst h0
    simp only [List.isEmpty_nil, if_true, roundTwo_eq]
    refine ⟨by simp, ?_, hframe, ?_, by trivial, by trivial⟩
    · rw [hbase]; simp [afterToolsMsgs]
    · rw [hbase]; simp [afterToolsMsgs]
  | false =>
    have hwp : st.length < (st ++ [readList st p]).length := by simp
    have hwpA : st.length < (writeAppend (st ++ [readList st p]) st.length
        (Msg.assistant content tcs)).length := by
      rw [writeAppend_length]; exact hwp
    have hread : readList (tcs.foldl (fun acc tc => writeAppend acc st.length (toolResultMsg h tc))
        (writeAppend (st ++ [readList st p]) st.length (Msg.assistant content tcs))) st.length =
        readList st p ++ Msg.assistant content tcs :: tcs.map (toolResultMsg h) := by
      rw [readList_foldl_writeAppend _ _ _ _ hwpA,
        readList_writeAppend_self _ _ _ hwp, hbase]
      simp
    simp only [htcs, Bool.false_eq_true, if_false, roundTwo_eq]
    refine ⟨?_, ?_, ?_, ?_, by trivial, by trivial⟩
    · rw [foldl_writeAppend_length, writeAppend_length]; simp
    · rw [hread]; simp [afterToolsMsgs, htcs]
    · intro q hq
      rw [readList_foldl_writeAppend_ne _ _ _ _ _ (Ne.symm hq),
        readList_writeAppend_ne _ _ _ _ (Ne.symm hq)]
      exact hframe q hq
    · rw [hread]; simp [afterToolsMsgs, htcs]

/-- Any cell other than the freshly allocated working cell — in particular
the caller's `messages` list — is untouched by a run, whatever path it
takes. -/
theorem orch_frame (oracle : ModelOracle) (st : Store) (p : Nat) (tools : List Tool)
    (hnd : Option ToolHandler) (q : Nat) (hq : q ≠ st.length) :
    readList (structured_chat_completion oracle st p tools hnd).store q = readList st q := by
  have hframe : readList (st ++ [readList st p]) q = readList st q := by
    rcases Nat.lt_or_ge q st.length with hlt | hge
    · exact readList_append_lt st _ q hlt
    · have hge' : st.length < q := Nat.lt_of_le_of_ne hge (fun hc => hq hc.symm)
      simp only [readList]
      rw [List.getElem?_eq_none (by simpa using hge'), List.getElem?_eq_none (Nat.le_of_lt hge')]
  cases tools with
  | nil => simpa [structured_chat_completion, structured_chat_completion_inner] using hframe
  | cons t ts =>
    cases hnd with
    | none => simpa [structured_chat_completion, structured_chat_completion_inner] using hframe
    | some h =>
      cases hc : oracle.create (readList st p) with
      | error e =>
        have hbase := readList_append_self st (readList st p)
        simp only [structured_chat_completion, structured_chat_completion_inner,
          List.isEmpty_cons, Bool.false_eq_true, if_false, hbase, hc]
        exact hframe
      | ok res =>
        exact (orch_run_draft_ok oracle st p t ts h res.1 res.2 (by rw [hc])).2.2.1 q hq

/-- Shape of a run whose first-round model call raises: the error is
re-raised (decorated), nothing was appended to the working copy, and the
structured-output endpoint was never invoked. -/
theorem orch_run_create_error (oracle : ModelOracle) (st : Store) (p : Nat) (t : Tool)
    (ts : List Tool) (h : ToolHandler) (e : PyError)
    (hcreate : oracle.create (readList st p) = .error e) :
    structured_chat_completion oracle st p (t :: ts) (some h) =
      { store := st ++ [readList st p], result := handle_openai_errors (.error e),
        createCalls := 1, parseCalls := 0 } := by
  have hbase := readList_append_self st (readList st p)
  simp [structured_chat_completion, structured_chat_completion_inner, hbase, hcreate]

/-!  Demo fixtures for closed witnesses and counterexamples. -/

/-- A concrete tool declaration in the shape of `CALENDAR_TOOLS`
(src/main.py). -/
def demoTool : Tool :=
  { function :=
    { name := "create_event", description := "Create a new calendar event",
      parameters :=
      { properties := [("summary", "Title of the event")], required := ["summary"] } } }

/-- A concrete raw completion with usage and one parsed choice. -/
def demoCompletion : Completion :=
  { usage := some { prompt_tokens := 1, completion_tokens := 1, total_tokens := 2 },
    choices := [{ parsed := some "payload" }] }

/-- An oracle whose first reply carries zero tool calls. -/
def oracleNoToolCalls : ModelOracle :=
  { create := fun _ => .ok (some "hello", []),
    parse := fun _ => .ok demoCompletion }

/-- Two concrete tool requests. -/
def demoToolCall1 : ToolCall := { id := "call_1", name := "create_event", arguments := "" }

def demoToolCall2 : ToolCall := { id := "call_2", name := "bogus_tool", arguments := "" }

/-- An oracle whose first reply requests both demo tool calls. -/
def oracleWithToolCalls : ModelOracle :=
  { create := fun _ => .ok (none, [demoToolCall1, demoToolCall2]),
    parse := fun _ => .ok demoCompletion }

/-- An oracle whose first-round call raises an `OpenAIError`. -/
def oracleCreateFails : ModelOracle :=
  { create := fun _ => .error (.openAIError "service unavailable"),
    parse := fun _ => .error (.openAIError "service unavailable") }

/-- A handler that succeeds on the first demo call and raises on the
second. -/
def demoHandler : ToolHandler := fun tc =>
  if tc.id == "call_1" then .ok "created" else .error (.valueError "Unknown tool: bogus_tool")

/-- C1: contrary to the claim, a call with no tools supplied completes
normally returning Python `None` — zero envelopes and no model-call error —
because the entire completion logic, including the final structured-output
round, sits inside `if tools:`; no model endpoint is even invoked. -/
theorem no_tools_completes_without_envelope (oracle : ModelOracle) (st : Store) (p : Nat)
    (hnd : Option ToolHandler) :
    (structured_chat_completion oracle st p [] hnd).result = .ok none ∧
    (structured_chat_completion oracle st p [] hnd).createCalls = 0 ∧
    (structured_chat_completion oracle st p [] hnd).parseCalls = 0 :=
  ⟨rfl, rfl, rfl⟩

/-- C2 counterexample: a completed turn whose first reply carries zero tool
requests appends nothing at all — the working cell still equals the caller's
conversation, so "exactly one assistant message" is not appended — yet an
envelope is returned. -/
theorem zero_tool_calls_appends_nothing_cx :
    (structured_chat_completion oracleNoToolCalls [[Msg.user "hi"]] 0 [demoTool]
        (some demoHandler)).store = [[Msg.user "hi"], [Msg.user "hi"]] ∧
    ∃ env, (structured_chat_completion oracleNoToolCalls [[Msg.user "hi"]] 0 [demoTool]
        (some demoHandler)).result = .ok (some env) :=
  ⟨rfl, ⟨_, rfl⟩⟩

/-- C2 (amended): for every turn in which the model's first reply contains
zero tool requests, the orchestrator appends nothing (the draft assistant
reply is discarded), immediately re-invokes the model forcing the structured
output schema over the conversation as-is, and returns that round's
envelope. -/
theorem zero_tool_calls_conversation_as_is (oracle : ModelOracle) (st : Store) (p : Nat)
    (t : Tool) (ts : List Tool) (h : ToolHandler) (content : Option String)
    (hcreate : oracle.create (readList st p) = .ok (content, [])) :
    readList (structured_chat_completion oracle st p (t :: ts) (some h)).store st.length =
      readList st p ∧
    (structured_chat_completion oracle st p (t :: ts) (some h)).result =
      handle_openai_errors (finalOutcome oracle (readList st p)) := by
  have h1 := (orch_run_draft_ok oracle st p t ts h content [] hcreate).2.1
  have h2 := (orch_run_draft_ok oracle st p t ts h content [] hcreate).2.2.2.1
  simp only [afterToolsMsgs, List.isEmpty_nil, if_true] at h1 h2
  exact ⟨h1, h2⟩

theorem zero_tool_calls_conversation_as_is_witness :
    readList (structured_chat_completion oracleNoToolCalls [[Msg.user "hi"]] 0 [demoTool]
        (some demoHandler)).store 1 = readList [[Msg.user "hi"]] 0 ∧
    (structured_chat_completion oracleNoToolCalls [[Msg.user "hi"]] 0 [demoTool]
        (some demoHandler)).result =
      handle_openai_errors (finalOutcome oracleNoToolCalls (readList [[Msg.user "hi"]] 0)) :=
  zero_tool_calls_conversation_as_is oracleNoToolCalls [[Msg.user "hi"]] 0 demoTool []
    demoHandler (some "hello") rfl

/-- C3: for a batch of tool requests the orchestrator appends the assistant
tool-request message followed by exactly one `tool` message per request, in
request order, and every such message has role `tool` and carries the
correlation id of its originating request — for every handler, i.e.
regardless of per-call success or failure. -/
theorem tool_batch_appends_assistant_and_results (oracle : ModelOracle) (st : Store) (p : Nat)
    (t : Tool) (ts : List Tool) (h : ToolHandler) (content : Option String)
    (tc : ToolCall) (tcs : List ToolCall)
    (hcreate : oracle.create (readList st p) = .ok (content, tc :: tcs)) :
    readList (structured_chat_completion oracle st p (t :: ts) (some h)).store st.length =
      readList st p ++ Msg.assistant content (tc :: tcs) ::
        (tc :: tcs).map (toolResultMsg h) ∧
    ((tc :: tcs).map (toolResultMsg h)).length = (tc :: tcs).length ∧
    ∀ c : ToolCall, (toolResultMsg h c).toolCallId? = some c.id ∧
      (toolResultMsg h c).isToolRole = true := by
  have h1 := (orch_run_draft_ok oracle st p t ts h content (tc :: tcs) hcreate).2.1
  simp only [afterToolsMsgs, List.isEmpty_cons, Bool.false_eq_true, if_false] at h1
  refine ⟨h1, by simp, ?_⟩
  intro c
  unfold toolResultMsg
  cases h c with
  | ok r => exact ⟨rfl, rfl⟩
  | error e => exact ⟨rfl, rfl⟩

theorem tool_batch_appends_assistant_and_results_witness :
    readList (structured_chat_completion oracleWithToolCalls [[Msg.user "hi"]] 0 [demoTool]
        (some demoHandler)).store 1 =
      readList [[Msg.user "hi"]] 0 ++ Msg.assistant none [demoToolCall1, demoToolCall2] ::
        [demoToolCall1, demoToolCall2].map (toolResultMsg demoHandler) ∧
    ([demoToolCall1, demoToolCall2].map (toolResultMsg demoHandler)).length =
      [demoToolCall1, demoToolCall2].length ∧
    ∀ c : ToolCall, (toolResultMsg demoHandler c).toolCallId? = some c.id ∧
      (toolResultMsg demoHandler c).isToolRole = true :=
  tool_batch_appends_assistant_and_results oracleWithToolCalls [[Msg.user "hi"]] 0 demoTool []
    demoHandler none demoToolCall1 [demoToolCall2] rfl

/-- C5: a failing model service call — in either round — propagates out as
the decorated error with no envelope, is attempted exactly once (no retry),
and the working conversation retains exactly what was appended before the
failing call. -/
theorem model_call_failure_propagates (oracle : ModelOracle) (st : Store) (p : Nat)
    (t : Tool) (ts : List Tool) (h : ToolHandler) :
    (∀ e, oracle.create (readList st p) = .error e →
      (structured_chat_completion oracle st p (t :: ts) (some h)).result =
        handle_openai_errors (.error e) ∧
      (structured_chat_completion oracle st p (t :: ts) (some h)).store =
        st ++ [readList st p] ∧
      (structured_chat_completion oracle st p (t :: ts) (some h)).createCalls = 1 ∧
      (structured_chat_completion oracle st p (t :: ts) (some h)).parseCalls = 0) ∧
    (∀ content tcs e, oracle.create (readList st p) = .ok (content, tcs) →
      oracle.parse (afterToolsMsgs h (readList st p) content tcs) = .error e →
      (structured_chat_completion oracle st p (t :: ts) (some h)).result =
        handle_openai_errors (.error e) ∧
      readList (structured_chat_completion oracle st p (t :: ts) (some h)).store st.length =
        afterToolsMsgs h (readList st p) content tcs ∧
      (structured_chat_completion oracle st p (t :: ts) (some h)).createCalls = 1 ∧
      (structured_chat_completion oracle st p (t :: ts) (some h)).parseCalls = 1) := by
  constructor
  · intro e he
    rw [orch_run_create_error oracle st p t ts h e he]
    exact ⟨rfl, rfl, rfl, rfl⟩
  · intro content tcs e hc hp
    obtain ⟨-, h2, -, h4, h5, h6⟩ := orch_run_draft_ok oracle st p t ts h content tcs hc
    refine ⟨?_, h2, h5, h6⟩
    rw [h4]
    simp [finalOutcome, hp]

theorem model_call_failure_propagates_witness :
    (structured_chat_completion oracleCreateFails [[Msg.user "hi"]] 0 [demoTool]
        (some demoHandler)).result =
      handle_openai_errors (.error (.openAIError "service unavailable")) ∧
    (structured_chat_completion oracleCreateFails [[Msg.user "hi"]] 0 [demoTool]
        (some demoHandler)).store = [[Msg.user "hi"]] ++ [readList [[Msg.user "hi"]] 0] ∧
    (structured_chat_completion oracleCreateFails [[Msg.user "hi"]] 0 [demoTool]
        (some demoHandler)).createCalls = 1 ∧
    (structured_chat_completion oracleCreateFails [[Msg.user "hi"]] 0 [demoTool]
        (some demoHandler)).parseCalls = 0 :=
  (model_call_failure_propagates oracleCreateFails [[Msg.user "hi"]] 0 demoTool []
    demoHandler).1 (.openAIError "service unavailable") rfl

/-- C10: the caller's `messages` list is unchanged when the orchestrator
returns or raises — all appends go to the private copy allocated by
`messages.copy()`. -/
theorem caller_messages_unchanged (oracle : ModelOracle) (st : Store) (p : Nat)
    (tools : List Tool) (hnd : Option ToolHandler) (hp : p < st.length) :
    readList (structured_chat_completion oracle st p tools hnd).store p = readList st p :=
  orch_frame oracle st p tools hnd p (Nat.ne_of_lt hp)

theorem caller_messages_unchanged_witness :
    readList (structured_chat_completion oracleWithToolCalls [[Msg.user "hi"]] 0 [demoTool]
        (some demoHandler)).store 0 = readList [[Msg.user "hi"]] 0 :=
  caller_messages_unchanged oracleWithToolCalls [[Msg.user "hi"]] 0 [demoTool]
    (some demoHandler) (by decide)

/-- C9: for a completion with usage present, a first choice, and non-negative
reported prompt/completion token counts, the formatter returns an envelope
with non-negative cost whose total token count is the provider-reported
total field itself (not recomputed from the parts); with the usage block
missing it raises instead of defaulting anything to zero. -/
theorem formatter_cost_nonneg_total_reported (c : Completion) :
    (∀ u ch rest, c.usage = some u → c.choices = ch :: rest →
      0 ≤ u.prompt_tokens → 0 ≤ u.completion_tokens →
      ∃ env, _format_completion_response_json c = .ok env ∧
        0 ≤ env.cost ∧ env.total_tokens = u.total_tokens) ∧
    (c.usage = none → ∃ e, _format_completion_response_json c = .error e) := by
  constructor
  · intro u ch rest hu hch hp hc
    refine ⟨{ data := ch.parsed,
              cost := ((u.prompt_tokens : ℚ) * (1 / 1000) +
                (u.completion_tokens : ℚ) * (2 / 1000)) / 1000,
              total_tokens := u.total_tokens }, ?_, ?_, rfl⟩
    · simp [_format_completion_response_json, hu, hch]
    · apply div_nonneg _ (by norm_num)
      apply add_nonneg
      · exact mul_nonneg (by exact_mod_cast hp) (by norm_num)
      · exact mul_nonneg (by exact_mod_cast hc) (by norm_num)
  · intro hu
    refine ⟨.typeError "argument of type NoneType is not subscriptable", ?_⟩
    simp [_format_completion_response_json, hu]

/-- A completion whose reported total (100) is deliberately not the sum of
its parts (3 + 5), separating "reported" from "recomputed". -/
def cexCompletion : Completion :=
  { usage := some { prompt_tokens := 3, completion_tokens := 5, total_tokens := 100 },
    choices := [{ parsed := some "ok" }] }

theorem formatter_cost_nonneg_total_reported_witness :
    ∃ env, _format_completion_response_json cexCompletion = .ok env ∧
      0 ≤ env.cost ∧ env.total_tokens = 100 :=
  (formatter_cost_nonneg_total_reported cexCompletion).1
    { prompt_tokens := 3, completion_tokens := 5, total_tokens := 100 }
    { parsed := some "ok" } [] rfl rfl (by decide) (by decide)

/-- C8: any timestamp accepted by `ensure_rfc3339_format`, when parsed back,
denotes the same instant as the input, reading a bare (offset-free) string
as UTC on both sides. -/
theorem rfc3339_roundtrip_instant (s out : TimeStr)
    (h : ensure_rfc3339_format s = .ok out) : toInstant out = toInstant s := by
  cases s with
  | mk n suf =>
    cases suf <;>
      simp only [ensure_rfc3339_format, replaceZ, fromisoformat, isoformat,
        Except.ok.injEq] at h <;>
      subst h <;> simp [toInstant]

theorem rfc3339_roundtrip_instant_witness :
    ensure_rfc3339_format { naive := 120, suffix := .zulu } =
      .ok { naive := 120, suffix := .offset 0 } ∧
    toInstant { naive := 120, suffix := .offset 0 } =
      toInstant { naive := 120, suffix := .zulu } :=
  ⟨rfl, rfc3339_roundtrip_instant _ _ rfl⟩

/-- C4: an unrecognized tool name or any error raised by a calendar
operation makes the executor return a failed Tool Result carrying the
original error text — it never propagates — and the orchestrator still
appends one message per request of the batch, so processing never stops
early. -/
theorem tool_executor_failures_isolated (ops : CalendarOps) (tc : ToolCall) (args : Args) :
    (tc.name ∉ (["create_event", "list_events", "add_attendee", "delete_event"] : List String) →
      handle_tool_call (.ok ()) ops tc args =
        { success := false, error := some ("Unknown tool: " ++ tc.name),
          message := "Failed to " ++ replaceUnderscores tc.name ++ ": " ++
            ("Unknown tool: " ++ tc.name) }) ∧
    (∀ e, dispatchToolName ops tc.name args = .error e →
      handle_tool_call (.ok ()) ops tc args =
        { success := false, error := some e.text,
          message := "Failed to " ++ replaceUnderscores tc.name ++ ": " ++ e.text }) ∧
    (∀ (oracle : ModelOracle) (st : Store) (p : Nat) (t : Tool) (ts : List Tool)
        (h : ToolHandler) (content : Option String) (tc0 : ToolCall) (tcs0 : List ToolCall),
      oracle.create (readList st p) = .ok (content, tc0 :: tcs0) →
      (readList (structured_chat_completion oracle st p (t :: ts) (some h)).store
          st.length).length = (readList st p).length + 1 + (tc0 :: tcs0).length) := by
  refine ⟨?_, ?_, ?_⟩
  · intro hn
    have h1 : tc.name ≠ "create_event" := fun hc => hn (by simp [hc])
    have h2 : tc.name ≠ "list_events" := fun hc => hn (by simp [hc])
    have h3 : tc.name ≠ "add_attendee" := fun hc => hn (by simp [hc])
    have h4 : tc.name ≠ "delete_event" := fun hc => hn (by simp [hc])
    simp [handle_tool_call, dispatchToolName, beq_iff_eq, h1, h2, h3, h4, PyError.text]
  · intro e he
    simp [handle_tool_call, he]
  · intro oracle st p t ts h content tc0 tcs0 hcreate
    have h1 := (orch_run_draft_ok oracle st p t ts h content (tc0 :: tcs0) hcreate).2.1
    rw [h1]
    simp [afterToolsMsgs]
    omega

/-- Concrete calendar operations: `add_attendee` rejects, the others
succeed. -/
def demoOps : CalendarOps :=
  { create_event := fun _ => .ok "created",
    list_events := fun _ => .ok "listed",
    add_attendee := fun _ => .error (.valueError "Could not find event with identifier: ghost"),
    delete_event := fun _ => .ok "deleted" }

theorem tool_executor_failures_isolated_witness :
    handle_tool_call (.ok ()) demoOps demoToolCall2 [] =
      { success := false, error := some ("Unknown tool: " ++ demoToolCall2.name),
        message := "Failed to " ++ replaceUnderscores demoToolCall2.name ++ ": " ++
          ("Unknown tool: " ++ demoToolCall2.name) } :=
  (tool_executor_failures_isolated demoOps demoToolCall2 []).1 (by decide)

/-!  C6: identifier resolution. -/

/-- A past event (its start predates the search window). -/
def cxEvent : GEvent :=
  { id := "abc", summary := "Team Sync", start := 5, endTime := 6, attendees := [] }

/-- A clock whose bounded future window is the span 100..200. -/
def cxEnv : TimeEnv := { now := 100, threeMonths := .ok 200 }

/-- A state whose cache holds the lowercased-title snapshot of the past
event, exactly as a prior `_cache_event` left it. -/
def cxState : CalState :=
  { events := [cxEvent], cache := [("team sync", toCached cxEvent)] }

/-- C6 counterexample: for the identifier "team sync", the exact-ID lookup
misses and the windowed title search misses (the event is in the past), so
by the claim the operation must fail with "could not find event" — yet the
code resolves it through the cache and `add_attendee` succeeds. -/
theorem resolution_uses_cache_before_lookup_cx :
    getEvent cxState.events "team sync" = none ∧
    (listWindow cxState.events cxEnv.now 200 "team sync").find?
        (fun e => e.summary.toLower == "team sync".toLower) = none ∧
    (_find_event_id cxEnv cxState "team sync").2 = some "abc" ∧
    (add_attendee cxEnv cxState "team sync" "dana@example.com").2 =
      .ok { id := "abc", summary := "Team Sync", start := 5, endTime := 6,
            attendees := ["dana@example.com"] } := by
  refine ⟨rfl, rfl, rfl, rfl⟩

/-- C6 (amended): resolution consults the process-wide cache first (exact
key match, keys being event IDs and lowercased titles), then the exact-ID
backend lookup, then the case-insensitive title search over the bounded
future window; only when all three miss does the operation fail with the
user-facing "Could not find event with identifier" error. -/
theorem resolution_order_and_not_found (env : TimeEnv) (st : CalState) (ident : String) :
    (∀ ce, cacheLookup st.cache ident = some ce →
      (_find_event_id env st ident).2 = some ce.id) ∧
    (∀ ev, cacheLookup st.cache ident = none → getEvent st.events ident = some ev →
      (_find_event_id env st ident).2 = some ev.id) ∧
    (∀ tmax ev, cacheLookup st.cache ident = none → getEvent st.events ident = none →
      env.threeMonths = .ok tmax →
      (listWindow st.events env.now tmax ident).find?
        (fun e => e.summary.toLower == ident.toLower) = some ev →
      (_find_event_id env st ident).2 = some ev.id) ∧
    (cacheLookup st.cache ident = none → getEvent st.events ident = none →
      (∀ tmax, env.threeMonths = .ok tmax →
        (listWindow st.events env.now tmax ident).find?
          (fun e => e.summary.toLower == ident.toLower) = none) →
      (_find_event_id env st ident).2 = none ∧
      (∀ email, (add_attendee env st ident email).2 =
        .error (.valueError ("Could not find event with identifier: " ++ ident))) ∧
      (delete_event env st ident).2 =
        .error (.valueError ("Could not find event with identifier: " ++ ident))) := by
  refine ⟨?_, ?_, ?_, ?_⟩
  · intro ce hce
    simp [_find_event_id, hce]
  · intro ev hc hg
    simp [_find_event_id, hc, hg]
  · intro tmax ev hc hg h3 hfind
    simp [_find_event_id, hc, hg, h3, hfind]
  · intro hc hg hfind
    have hfid : _find_event_id env st ident = (st, none) := by
      unfold _find_event_id
      cases h3 : env.threeMonths with
      | error e => simp [hc, hg, h3]
      | ok tmax => simp [hc, hg, h3, hfind tmax h3]
    exact ⟨by rw [hfid], fun email => by simp [add_attendee, hfid],
      by simp [delete_event, hfid]⟩

theorem resolution_order_and_not_found_witness :
    (_find_event_id cxEnv { events := [], cache := [] } "ghost").2 = none ∧
    (∀ email, (add_attendee cxEnv { events := [], cache := [] } "ghost" email).2 =
      .error (.valueError ("Could not find event with identifier: " ++ "ghost"))) ∧
    (delete_event cxEnv { events := [], cache := [] } "ghost").2 =
      .error (.valueError ("Could not find event with identifier: " ++ "ghost")) :=
  (resolution_order_and_not_found cxEnv { events := [], cache := [] } "ghost").2.2.2
    rfl rfl (fun _ _ => rfl)

/-!  Support lemmas for `add_attendee` idempotence. -/

/-- Resolution only touches the cache, never the backend's events. -/
theorem find_event_id_events (env : TimeEnv) (st : CalState) (i : String) :
    ((_find_event_id env st i).1).events = st.events := by
  unfold _find_event_id
  repeat' split
  all_goals rfl

/-- A successful exact-ID lookup returns a member carrying that id. -/
theorem getEvent_id (evs : List GEvent) (k : String) (e : GEvent)
    (h : getEvent evs k = some e) : e.id = k ∧ e ∈ evs := by
  unfold getEvent at h
  have h1 := List.find?_some h
  have h2 := List.mem_of_find?_eq_some h
  exact ⟨by simpa using h1, h2⟩

theorem find?_map_congr {α : Type} (l : List α) (f : α → α) (p : α → Bool)
    (hp : ∀ e ∈ l, p (f e) = p e) :
    (l.map f).find? p = (l.find? p).map f := by
  induction l with
  | nil => rfl
  | cons x xs ih =>
    have hx := hp x (by simp)
    cases hpx : p x with
    | true =>
      rw [List.map_cons, List.find?_cons_of_pos _ (by rw [hx, hpx]),
        List.find?_cons_of_pos _ hpx]
      rfl
    | false =>
      rw [List.map_cons, List.find?_cons_of_neg _ (by rw [hx, hpx]; decide),
        List.find?_cons_of_neg _ (by rw [hpx]; decide),
        ih (fun e he => hp e (by simp [he]))]

theorem filter_map_congr {α : Type} (l : List α) (f : α → α) (p : α → Bool)
    (hp : ∀ e ∈ l, p (f e) = p e) :
    (l.map f).filter p = (l.filter p).map f := by
  induction l with
  | nil => rfl
  | cons x xs ih =>
    have hx := hp x (by simp)
    simp only [List.map_cons, List.filter_cons, hx]
    cases hpx : p x <;>
      simp [hpx, ih (fun e he => hp e (by simp [he]))]

/-- Dict-lookup on a freshly consed binding. -/
theorem cacheLookup_cons (k : String) (v : CachedEvent) (rest : Cache) (x : String) :
    cacheLookup ((k, v) :: rest) x = if k == x then some v else cacheLookup rest x := by
  unfold cacheLookup
  cases hkx : (k == x) with
  | true => rw [List.find?_cons_of_pos _ (by simpa using hkx)]; simp [hkx]
  | false =>
    rw [List.find?_cons_of_neg _ (by simpa using hkx)]
    simp [hkx]

/-- With pairwise-distinct ids, an id determines the event. -/
theorem unique_by_id (evs : List GEvent) (hn : (evs.map (fun e => e.id)).Nodup)
    (a b : GEvent) (ha : a ∈ evs) (hb : b ∈ evs) (hid : a.id = b.id) : a = b :=
  List.inj_on_of_nodup_map hn ha hb hid

/-- The two bindings `_cache_event` prepends. -/
theorem cache_event_fst (c : Cache) (ev : GEvent) :
    (_cache_event c ev).1 =
      (ev.summary.toLower, toCached ev) :: (ev.id, toCached ev) :: c := rfl

theorem find_event_id_cache_hit (env : TimeEnv) (st : CalState) (i : String)
    (ce : CachedEvent) (h : cacheLookup st.cache i = some ce) :
    _find_event_id env st i = (st, some ce.id) := by
  unfold _find_event_id
  simp [h]

theorem find_event_id_exact_hit (env : TimeEnv) (st : CalState) (i : String) (ev : GEvent)
    (hc : cacheLookup st.cache i = none) (hg : getEvent st.events i = some ev) :
    _find_event_id env st i =
      ({ st with cache := (_cache_event st.cache ev).1 }, some ev.id) := by
  unfold _find_event_id
  simp [hc, hg]

theorem find_event_id_title_hit (env : TimeEnv) (st : CalState) (i : String) (tmax : Int)
    (ev : GEvent) (hc : cacheLookup st.cache i = none) (hg : getEvent st.events i = none)
    (h3 : env.threeMonths = .ok tmax)
    (hf : (listWindow st.events env.now tmax i).find?
      (fun e => e.summary.toLower == i.toLower) = some ev) :
    _find_event_id env st i =
      ({ st with cache := (_cache_event st.cache ev).1 }, some ev.id) := by
  unfold _find_event_id
  simp [hc, hg, h3, hf]

theorem find_event_id_miss (env : TimeEnv) (st : CalState) (i : String)
    (hc : cacheLookup st.cache i = none) (hg : getEvent st.events i = none)
    (hf : ∀ tmax, env.threeMonths = .ok tmax →
      (listWindow st.events env.now tmax i).find?
        (fun e => e.summary.toLower == i.toLower) = none) :
    _find_event_id env st i = (st, none) := by
  unfold _find_event_id
  cases h3 : env.threeMonths with
  | error e => simp [hc, hg, h3]
  | ok tmax => simp [hc, hg, h3, hf tmax h3]

theorem add_attendee_not_found (env : TimeEnv) (st : CalState) (eid email : String)
    (stR : CalState) (h : _find_event_id env st eid = (stR, none)) :
    add_attendee env st eid email =
      (stR, .error (.valueError ("Could not find event with identifier: " ++ eid))) := by
  unfold add_attendee
  simp [h]

theorem add_attendee_stale (env : TimeEnv) (st : CalState) (eid email : String)
    (stR : CalState) (aid : String) (h : _find_event_id env st eid = (stR, some aid))
    (hg : getEvent stR.events aid = none) :
    add_attendee env st eid email =
      (stR, .error (.exception ("Event " ++ aid ++ " not found"))) := by
  unfold add_attendee
  simp [h, hg]

theorem add_attendee_present (env : TimeEnv) (st : CalState) (eid email : String)
    (stR : CalState) (aid : String) (ev : GEvent)
    (h : _find_event_id env st eid = (stR, some aid))
    (hg : getEvent stR.events aid = some ev)
    (hmem : ev.attendees.contains email = true) :
    add_attendee env st eid email =
      ({ stR with cache := (_cache_event stR.cache ev).1 }, .ok (toCached ev)) := by
  have hm : email ∈ ev.attendees := by simpa using hmem
  unfold add_attendee
  simp [h, hg, hm, _cache_event]

theorem add_attendee_absent (env : TimeEnv) (st : CalState) (eid email : String)
    (stR : CalState) (aid : String) (ev : GEvent)
    (h : _find_event_id env st eid = (stR, some aid))
    (hg : getEvent stR.events aid = some ev)
    (hmem : ev.attendees.contains email = false) :
    add_attendee env st eid email =
      ({ events := updateEvent stR.events aid { ev with attendees := ev.attendees ++ [email] },
         cache := (_cache_event stR.cache { ev with attendees := ev.attendees ++ [email] }).1 },
       .ok (toCached { ev with attendees := ev.attendees ++ [email] })) := by
  have hm : email ∉ ev.attendees := by simpa using hmem
  unfold add_attendee
  simp [h, hg, hm, _cache_event]

/-- Replacing the event with id `aid` by a body carrying the same id leaves
every exact-ID lookup the image of the original lookup. -/
theorem getEvent_update (evs : List GEvent) (aid : String) (ev evF : GEvent)
    (hev : getEvent evs aid = some ev) (hFid : evF.id = ev.id) (k : String) :
    getEvent (updateEvent evs aid evF) k =
      (getEvent evs k).map (fun e => if e.id == aid then evF else e) := by
  have hevid : ev.id = aid := (getEvent_id _ _ _ hev).1
  unfold getEvent updateEvent
  rw [find?_map_congr]
  intro e he
  by_cases hcase : e.id = aid
  · simp only [hcase, beq_self_eq_true, if_true, hFid, hevid]
  · simp [hcase]

/-- With pairwise-distinct ids, the update body having the same id, summary
and start as the replaced event, the update preserves every member's id,
summary and start. -/
theorem update_shape_mem (evs : List GEvent) (hn : (evs.map (fun e => e.id)).Nodup)
    (aid : String) (ev evF : GEvent) (hev : getEvent evs aid = some ev)
    (hFid : evF.id = ev.id) (hFsum : evF.summary = ev.summary)
    (hFstart : evF.start = ev.start) :
    ∀ e ∈ evs, (if e.id == aid then evF else e).id = e.id ∧
      (if e.id == aid then evF else e).summary = e.summary ∧
      (if e.id == aid then evF else e).start = e.start := by
  intro e he
  have hevid : ev.id = aid := (getEvent_id _ _ _ hev).1
  have hevmem : ev ∈ evs := (getEvent_id _ _ _ hev).2
  by_cases hcase : e.id = aid
  · have he2 : e = ev := unique_by_id evs hn e ev he hevmem (by rw [hcase, hevid])
    subst he2
    simp [hcase, hFid, hFsum, hFstart, hevid]
  · simp [hcase]

/-- Under the same conditions, the windowed title search over the updated
backend returns the image of the original search result. -/
theorem window_search_update (evs : List GEvent) (hn : (evs.map (fun e => e.id)).Nodup)
    (aid : String) (ev evF : GEvent) (hev : getEvent evs aid = some ev)
    (hFid : evF.id = ev.id) (hFsum : evF.summary = ev.summary)
    (hFstart : evF.start = ev.start) (a b : Int) (q : String) :
    (listWindow (updateEvent evs aid evF) a b q).find?
        (fun e => e.summary.toLower == q.toLower) =
      ((listWindow evs a b q).find? (fun e => e.summary.toLower == q.toLower)).map
        (fun e => if e.id == aid then evF else e) := by
  have hshape := update_shape_mem evs hn aid ev evF hev hFid hFsum hFstart
  unfold listWindow updateEvent
  rw [filter_map_congr _ _ _ (fun e he => by
    obtain ⟨-, h2, h3⟩ := hshape e he
    simp only [qMatch, h2, h3])]
  rw [find?_map_congr _ _ _ (fun e he => by
    obtain ⟨-, h2, -⟩ := hshape e (List.mem_of_mem_filter he)
    simp only [h2])]


/-- Component form of `find_event_id_cache_hit`, for rewriting against
record-literal states. -/
theorem find_event_id_cache_hit' (env : TimeEnv) (E : List GEvent) (C : Cache) (i : String)
    (ce : CachedEvent) (h : cacheLookup C i = some ce) :
    _find_event_id env { events := E, cache := C } i =
      ({ events := E, cache := C }, some ce.id) :=
  find_event_id_cache_hit env ⟨E, C⟩ i ce h

/-- Component form of `find_event_id_title_hit`. -/
theorem find_event_id_title_hit' (env : TimeEnv) (E : List GEvent) (C : Cache) (i : String)
    (tmax : Int) (ev : GEvent) (hc : cacheLookup C i = none) (hg : getEvent E i = none)
    (h3 : env.threeMonths = .ok tmax)
    (hf : (listWindow E env.now tmax i).find?
      (fun e => e.summary.toLower == i.toLower) = some ev) :
    _find_event_id env { events := E, cache := C } i =
      ({ events := E, cache := (_cache_event C ev).1 }, some ev.id) :=
  find_event_id_title_hit env ⟨E, C⟩ i tmax ev hc hg h3 hf

/-- After a successful `add_attendee`, resolving the same identifier again
still yields the same backend event id, whatever path the first resolution
took: the fresh cache entries, the surviving older ones, or a repeat of the
windowed title search over the (shape-preserved) updated backend. -/
theorem second_resolution (env : TimeEnv) (st : CalState) (i : String)
    (hn : (st.events.map (fun e => e.id)).Nodup)
    (stR : CalState) (aid : String)
    (hpath :
      (∃ ce, cacheLookup st.cache i = some ce ∧ ce.id = aid ∧ stR = st) ∨
      (∃ ev0, cacheLookup st.cache i = none ∧ getEvent st.events i = some ev0 ∧
        aid = ev0.id ∧ stR = { st with cache := (_cache_event st.cache ev0).1 }) ∨
      (∃ tmax ev0, cacheLookup st.cache i = none ∧ getEvent st.events i = none ∧
        env.threeMonths = .ok tmax ∧
        (listWindow st.events env.now tmax i).find?
          (fun e => e.summary.toLower == i.toLower) = some ev0 ∧
        aid = ev0.id ∧ stR = { st with cache := (_cache_event st.cache ev0).1 }))
    (ev evF : GEvent) (hev : getEvent st.events aid = some ev)
    (hFid : evF.id = ev.id) (hFsum : evF.summary = ev.summary)
    (hFstart : evF.start = ev.start)
    (newEvents : List GEvent)
    (hne : newEvents = st.events ∨ newEvents = updateEvent st.events aid evF) :
    (_find_event_id env
      { events := newEvents,
        cache := (evF.summary.toLower, toCached evF) :: (evF.id, toCached evF) :: stR.cache }
      i).2 = some aid := by
  have hevid : ev.id = aid := (getEvent_id _ _ _ hev).1
  have hevmem : ev ∈ st.events := (getEvent_id _ _ _ hev).2
  by_cases hk1 : evF.summary.toLower = i
  · have hcl : cacheLookup ((evF.summary.toLower, toCached evF) ::
        (evF.id, toCached evF) :: stR.cache) i = some (toCached evF) := by
      rw [cacheLookup_cons, if_pos (by simp [hk1])]
    rw [find_event_id_cache_hit' env newEvents _ i _ hcl]
    simp [toCached, hFid, hevid]
  by_cases hk2 : evF.id = i
  · have hcl : cacheLookup ((evF.summary.toLower, toCached evF) ::
        (evF.id, toCached evF) :: stR.cache) i = some (toCached evF) := by
      rw [cacheLookup_cons, if_neg (by simp [hk1]), cacheLookup_cons,
        if_pos (by simp [hk2])]
    rw [find_event_id_cache_hit' env newEvents _ i _ hcl]
    simp [toCached, hFid, hevid]
  have hcl0 : cacheLookup ((evF.summary.toLower, toCached evF) ::
      (evF.id, toCached evF) :: stR.cache) i = cacheLookup stR.cache i := by
    rw [cacheLookup_cons, if_neg (by simp [hk1]), cacheLookup_cons,
      if_neg (by simp [hk2])]
  rcases hpath with ⟨ce, hce, hceid, rfl⟩ |
    ⟨ev0, hc0, hg0, haid, rfl⟩ |
    ⟨tmax, ev0, hc0, hg0, h3, hf0, haid, rfl⟩
  · have hcl : cacheLookup ((evF.summary.toLower, toCached evF) ::
        (evF.id, toCached evF) :: stR.cache) i = some ce := by
      rw [hcl0, hce]
    rw [find_event_id_cache_hit' env newEvents _ i ce hcl]
    simp [hceid]
  · exfalso
    apply hk2
    rw [hFid, hevid, haid, (getEvent_id _ _ _ hg0).1]
  · have hev0ev : ev0 = ev := by
      apply unique_by_id st.events hn ev0 ev
        (List.mem_of_mem_filter (List.mem_of_find?_eq_some hf0)) hevmem
      rw [hevid, haid]
    subst hev0ev
    have hclR : cacheLookup ({ st with cache := (_cache_event st.cache ev0).1 }).cache i
        = none := by
      show cacheLookup ((ev0.summary.toLower, toCached ev0) ::
        (ev0.id, toCached ev0) :: st.cache) i = none
      rw [cacheLookup_cons, if_neg (by rw [← hFsum]; simp [hk1]),
        cacheLookup_cons, if_neg (by rw [← hFid]; simp [hk2]), hc0]
    have hcl : cacheLookup ((evF.summary.toLower, toCached evF) ::
        (evF.id, toCached evF) :: ({ st with cache := (_cache_event st.cache ev0).1 }).cache)
        i = none := by
      rw [hcl0, hclR]
    rcases hne with rfl | rfl
    · rw [find_event_id_title_hit' env st.events _ i tmax ev0 hcl hg0 h3 hf0]
      simp [haid]
    · have hg2 : getEvent (updateEvent st.events aid evF) i = none := by
        rw [getEvent_update st.events aid ev0 evF hev hFid i, hg0]
        simp
      have hf2 : (listWindow (updateEvent st.events aid evF) env.now tmax i).find?
          (fun e => e.summary.toLower == i.toLower) = some evF := by
        rw [window_search_update st.events hn aid ev0 evF hev hFid hFsum hFstart
          env.now tmax i, hf0]
        simp [hevid]
      rw [find_event_id_title_hit' env (updateEvent st.events aid evF) _ i tmax evF
        hcl hg2 h3 hf2]
      simp [hFid, hevid]

/-- Core of the idempotence argument, shared by the three resolution paths
of the first call. -/
theorem add_attendee_idempotent_core (env : TimeEnv) (st : CalState) (eid email : String)
    (st1 : CalState) (ce1 : CachedEvent)
    (hn : (st.events.map (fun e => e.id)).Nodup)
    (stR : CalState) (aid : String)
    (hres : _find_event_id env st eid = (stR, some aid))
    (hpath :
      (∃ ce, cacheLookup st.cache eid = some ce ∧ ce.id = aid ∧ stR = st) ∨
      (∃ ev0, cacheLookup st.cache eid = none ∧ getEvent st.events eid = some ev0 ∧
        aid = ev0.id ∧ stR = { st with cache := (_cache_event st.cache ev0).1 }) ∨
      (∃ tmax ev0, cacheLookup st.cache eid = none ∧ getEvent st.events eid = none ∧
        env.threeMonths = .ok tmax ∧
        (listWindow st.events env.now tmax eid).find?
          (fun e => e.summary.toLower == eid.toLower) = some ev0 ∧
        aid = ev0.id ∧ stR = { st with cache := (_cache_event st.cache ev0).1 }))
    (h1 : add_attendee env st eid email = (st1, .ok ce1)) :
    ∃ st2 ce2, add_attendee env st1 eid email = (st2, .ok ce2) ∧
      ce2.attendees = ce1.attendees ∧ st2.events = st1.events := by
  have hevts : stR.events = st.events := by
    have h := find_event_id_events env st eid
    rw [hres] at h
    exact h
  rcases hev : getEvent st.events aid with _ | ev
  · rw [add_attendee_stale env st eid email stR aid hres (by rw [hevts]; exact hev)] at h1
    simp at h1
  · cases hmem : ev.attendees.contains email with
    | true =>
      rw [add_attendee_present env st eid email stR aid ev hres
        (by rw [hevts]; exact hev) hmem, cache_event_fst, hevts] at h1
      injection h1 with h1a h1b
      injection h1b with h1b
      subst h1a
      subst h1b
      have hres2snd := second_resolution env st eid hn stR aid hpath ev ev hev
        rfl rfl rfl st.events (Or.inl rfl)
      rcases hres2 : _find_event_id env
        { events := st.events,
          cache := (ev.summary.toLower, toCached ev) :: (ev.id, toCached ev) :: stR.cache }
        eid with ⟨st2R, f2⟩
      have hf2 : f2 = some aid := by
        rw [hres2] at hres2snd
        exact hres2snd
      subst hf2
      have hevts2 : st2R.events = st.events := by
        have h := find_event_id_events env
          { events := st.events,
            cache := (ev.summary.toLower, toCached ev) :: (ev.id, toCached ev) :: stR.cache }
          eid
        rw [hres2] at h
        exact h
      rw [add_attendee_present env _ eid email st2R aid ev hres2
        (by rw [hevts2]; exact hev) hmem]
      exact ⟨_, _, rfl, rfl, hevts2⟩
    | false =>
      rw [add_attendee_absent env st eid email stR aid ev hres
        (by rw [hevts]; exact hev) hmem, cache_event_fst, hevts] at h1
      injection h1 with h1a h1b
      injection h1b with h1b
      subst h1a
      subst h1b
      have hmem2 : ({ ev with attendees := ev.attendees ++ [email] } : GEvent).attendees.contains
          email = true := by
        simp
      have hget2 : getEvent (updateEvent st.events aid
          { ev with attendees := ev.attendees ++ [email] }) aid =
          some { ev with attendees := ev.attendees ++ [email] } := by
        rw [getEvent_update st.events aid ev { ev with attendees := ev.attendees ++ [email] }
          hev rfl aid, hev]
        simp [(getEvent_id _ _ _ hev).1]
      have hres2snd := second_resolution env st eid hn stR aid hpath ev
        { ev with attendees := ev.attendees ++ [email] } hev rfl rfl rfl
        (updateEvent st.events aid { ev with attendees := ev.attendees ++ [email] })
        (Or.inr rfl)
      rcases hres2 : _find_event_id env
        { events := updateEvent st.events aid { ev with attendees := ev.attendees ++ [email] },
          cache := (({ ev with attendees := ev.attendees ++ [email] } : GEvent).summary.toLower,
              toCached { ev with attendees := ev.attendees ++ [email] }) ::
            (({ ev with attendees := ev.attendees ++ [email] } : GEvent).id,
              toCached { ev with attendees := ev.attendees ++ [email] }) :: stR.cache }
        eid with ⟨st2R, f2⟩
      have hf2 : f2 = some aid := by
        rw [hres2] at hres2snd
        exact hres2snd
      subst hf2
      have hevts2 : st2R.events = updateEvent st.events aid
          { ev with attendees := ev.attendees ++ [email] } := by
        have h := find_event_id_events env
          { events := updateEvent st.events aid { ev with attendees := ev.attendees ++ [email] },
            cache := (({ ev with attendees := ev.attendees ++ [email] } : GEvent).summary.toLower,
                toCached { ev with attendees := ev.attendees ++ [email] }) ::
              (({ ev with attendees := ev.attendees ++ [email] } : GEvent).id,
                toCached { ev with attendees := ev.attendees ++ [email] }) :: stR.cache }
          eid
        rw [hres2] at h
        exact h
      rw [add_attendee_present env _ eid email st2R aid
        { ev with attendees := ev.attendees ++ [email] } hres2
        (by rw [hevts2]; exact hget2) hmem2]
      exact ⟨_, _, rfl, rfl, hevts2⟩

/-- C7: if `add_attendee` succeeds once, invoking it a second time with the
same event identifier and email succeeds with an identical attendee list and
leaves the backend unchanged — the second call hits the already-present
email and performs no update.  The backend is assumed to hold
pairwise-distinct event ids (as Google Calendar guarantees). -/
theorem add_attendee_idempotent (env : TimeEnv) (st : CalState) (eid email : String)
    (st1 : CalState) (ce1 : CachedEvent)
    (hn : (st.events.map (fun e => e.id)).Nodup)
    (h1 : add_attendee env st eid email = (st1, .ok ce1)) :
    ∃ st2 ce2, add_attendee env st1 eid email = (st2, .ok ce2) ∧
      ce2.attendees = ce1.attendees ∧ st2.events = st1.events := by
  rcases hc : cacheLookup st.cache eid with _ | ce
  · rcases hg : getEvent st.events eid with _ | ev0
    · rcases h3 : env.threeMonths with e3 | tmax
      · have hres : _find_event_id env st eid = (st, none) :=
          find_event_id_miss env st eid hc hg (fun t ht => by rw [h3] at ht; cases ht)
        rw [add_attendee_not_found env st eid email st hres] at h1
        simp at h1
      · rcases hf : (listWindow st.events env.now tmax eid).find?
            (fun e => e.summary.toLower == eid.toLower) with _ | ev0
        · have hres : _find_event_id env st eid = (st, none) :=
            find_event_id_miss env st eid hc hg (fun t ht => by
              rw [h3] at ht
              injection ht with ht
              rw [← ht]
              exact hf)
          rw [add_attendee_not_found env st eid email st hres] at h1
          simp at h1
        · exact add_attendee_idempotent_core env st eid email st1 ce1 hn _ ev0.id
            (find_event_id_title_hit env st eid tmax ev0 hc hg h3 hf)
            (Or.inr (Or.inr ⟨tmax, ev0, hc, hg, h3, hf, rfl, rfl⟩)) h1
    · exact add_attendee_idempotent_core env st eid email st1 ce1 hn _ ev0.id
        (find_event_id_exact_hit env st eid ev0 hc hg)
        (Or.inr (Or.inl ⟨ev0, hc, hg, rfl, rfl⟩)) h1
  · exact add_attendee_idempotent_core env st eid email st1 ce1 hn st ce.id
      (find_event_id_cache_hit env st eid ce hc)
      (Or.inl ⟨ce, hc, rfl, rfl⟩) h1

/-- A backend holding one upcoming event, with an empty cache. -/
def wEvent : GEvent :=
  { id := "e1", summary := "Standup", start := 150, endTime := 151, attendees := [] }

def wState : CalState := { events := [wEvent], cache := [] }

/-- The same event after the first `add_attendee` appended the email. -/
def wEventAfter : GEvent :=
  { id := "e1", summary := "Standup", start := 150, endTime := 151,
    attendees := ["bob@example.com"] }

/-- The idempotence theorem applied to a concrete run: the first call
appends the email, the second call is a no-op with the same attendee
list. -/
theorem add_attendee_idempotent_witness :
    ∃ st2 ce2,
      add_attendee cxEnv (add_attendee cxEnv wState "e1" "bob@example.com").1 "e1"
        "bob@example.com" = (st2, .ok ce2) ∧
      ce2.attendees = (toCached wEventAfter).attendees ∧
      st2.events = (add_attendee cxEnv wState "e1" "bob@example.com").1.events :=
  add_attendee_idempotent cxEnv wState "e1" "bob@example.com"
    (add_attendee cxEnv wState "e1" "bob@example.com").1 (toCached wEventAfter)
    (by simp [wState, wEvent]) (by rfl)
